import Mathlib

/-!
Verification development for the Stripe webhook mailer
(Pavel-Yok/stripe-notifications-mailgun).

The JavaScript source is shallowly embedded: pure functions become Lean
functions, the asynchronous collaborators (the GCS object store, the SES
suppression registry, the SES transport) become explicit inputs (a store
is a function `String → Option String`, a registry answer is a value of
an inductive type), and the mutable local suppression cache is threaded
explicitly as a value of type `String → Option Nat`.

JavaScript strings are modelled by `String`; the string operations the
source uses (`trim`, `toLowerCase`, `split`, the regexes) are defined
below over `List Char` so that every definition evaluates inside the
kernel.  The ASCII fragment of the JavaScript semantics is modelled;
every string the program actually compares against ("trueweb", "pl",
"@example.com", the suppression keywords, ...) is ASCII.
-/

/- ===== JavaScript string primitives, modelled over List Char ===== -/

/-- Whitespace class of the JavaScript regex `\s` and of `trim`,
restricted to its ASCII members. -/
def isJsWs (c : Char) : Bool :=
  (c == ' ') || (c == '\t') || (c == '\n') || (c == '\r') || (c == '\x0b') || (c == '\x0c')

/-- Character class `[.\w]` of the placeholder regex: ASCII letters,
digits, underscore, or a dot. -/
def isWordDot (c : Char) : Bool :=
  c.isAlphanum || (c == '_') || (c == '.')

/-- ASCII lower-casing of one character, the fragment of
`String.prototype.toLowerCase` the program exercises. -/
def asciiLower (c : Char) : Char :=
  if 'A' ≤ c ∧ c ≤ 'Z' then Char.ofNat (c.toNat + 32) else c

/-- Model of `s.toLowerCase()`. -/
def lowerStr (s : String) : String :=
  String.mk (s.data.map asciiLower)

/-- Model of `s.trim()`: drop leading and trailing whitespace. -/
def trimList (l : List Char) : List Char :=
  ((l.dropWhile isJsWs).reverse.dropWhile isJsWs).reverse

/-- Model of `s.trim()` on strings. -/
def jsTrimStr (s : String) : String :=
  String.mk (trimList s.data)

/-- Model of `key.split(".")` accumulating the current segment. -/
def splitDotAux : List Char → List Char → List String
  | [], acc => [String.mk acc.reverse]
  | c :: cs, acc =>
    if c = '.' then String.mk acc.reverse :: splitDotAux cs [] else splitDotAux cs (c :: acc)

/-- Model of `key.split(".")`. -/
def splitDots (s : String) : List String :=
  splitDotAux s.data []

/-- Substring test on char lists: does `needle` occur inside the list? -/
def containsL (needle : List Char) : List Char → Bool
  | [] => needle.isPrefixOf []
  | c :: t => needle.isPrefixOf (c :: t) || containsL needle t

/-- Suffix test on char lists. -/
def endsWithL (suffix l : List Char) : Bool :=
  suffix.reverse.isPrefixOf l.reverse

/-- Model of the case-insensitive regex `/@example\.com$/i`. -/
def isExampleDomain (s : String) : Bool :=
  endsWithL ("@example.com").data (s.data.map asciiLower)

/-- JavaScript truthiness of an optional string (absent and the empty
string are falsy). -/
def truthyS : Option String → Bool
  | none => false
  | some s => s != ""

/-- Model of `a || b` on optional strings: keep `a` when truthy. -/
def jsOrStr (a b : Option String) : Option String :=
  if truthyS a then a else b

/- ===== Data bag values (the nested `data` object of the renderer) ===== -/

/-- Values a template data bag can hold: the JavaScript values the
renderer actually passes around (strings, integers, booleans, null,
undefined, nested plain objects). -/
inductive JsVal where
  | nul
  | undefined
  | bool (b : Bool)
  | num (n : Int)
  | str (s : String)
  | obj (fields : List (String × JsVal))

/-- First-match association lookup, the own-property lookup of a plain
object literal. -/
def lookupFirst : List (String × JsVal) → String → Option JsVal
  | [], _ => none
  | (k', v) :: t, k => if k' = k then some v else lookupFirst t k

/-- Model of `Object.prototype.hasOwnProperty.call(cur, p) ? cur[p] : ·`:
only plain objects expose own properties in the data bags the program
builds. -/
def getOwn : JsVal → String → Option JsVal
  | .obj fields, k => lookupFirst fields k
  | _, _ => none

/-- JavaScript truthiness of a value. -/
def jsTruthy : JsVal → Bool
  | .nul => false
  | .undefined => false
  | .bool b => b
  | .num n => n != 0
  | .str s => s != ""
  | .obj _ => true

/-- The `cur != null` loose test: true exactly on null and undefined. -/
def isNullish : JsVal → Bool
  | .nul => true
  | .undefined => true
  | _ => false

/-- Model of the template-literal coercion `String(cur)`. -/
def jsToString : JsVal → String
  | .nul => "null"
  | .undefined => "undefined"
  | .bool true => "true"
  | .bool false => "false"
  | .num n => toString n
  | .str s => s
  | .obj _ => "[object Object]"

/-- Member access `v[k]` yielding `undefined` when the key is absent. -/
def jsGet (v : JsVal) (k : String) : JsVal :=
  match getOwn v k with
  | some w => w
  | none => .undefined

/- ===== Placeholder Engine (src/unnamed/part_004, second revision) =====

The source replaces, globally, the regex

  (two open braces) \s* ([.\w]+) (?: pipe ([^closing-brace]+) )? \s* (two close braces)

by a callback that walks the dotted path through the data bag with
hasOwnProperty at each step, returns String(cur) when the walk succeeds
on a non-nullish value, the trimmed captured default when one was
captured, and the re-built marker text otherwise.
-/

/-- Dotted-path walk of the replacement callback: `some cur` when every
segment was an own property of a truthy value, `none` when the loop set
`found = false`. -/
def walk : JsVal → List String → Option JsVal
  | cur, [] => some cur
  | cur, p :: ps =>
    if jsTruthy cur then
      match getOwn cur p with
      | some v => walk v ps
      | none => none
    else none

/-- The not-found result of the callback: the trimmed default when one
was captured, otherwise the marker is re-emitted from the key alone. -/
def markerFallback (key : String) (defVal : Option String) : String :=
  match defVal with
  | some d => jsTrimStr d
  | none => "\x7b\x7b" ++ key ++ "\x7d\x7d"

/-- The replacement callback of `replacePlaceholders`. -/
def renderMarker (data : JsVal) (key : String) (defVal : Option String) : String :=
  match walk data (splitDots key) with
  | some v => if isNullish v then markerFallback key defVal else jsToString v
  | none => markerFallback key defVal

/-- Attempt to match the regex
`\\\x7b\\\x7b\s*([.\w]+)(?:\|([^\x7d]+))?\s*\\\x7d\\\x7d` at the head of the
list.  The greedy sub-expressions never need backtracking here: the
character classes of adjacent parts are disjoint, so each star consumes
its maximal run.  Returns the captured key, the optional raw default
capture, and the remainder after the match. -/
def matchAt (l : List Char) : Option (String × Option String × List Char) :=
  match l with
  | '{' :: '{' :: rest =>
    let afterWs := rest.dropWhile isJsWs
    let keyChars := afterWs.takeWhile isWordDot
    let afterKey := afterWs.dropWhile isWordDot
    if keyChars.isEmpty then none
    else if afterKey.head? = some '|' then
      let r3 := afterKey.tail
      let dfltChars := r3.takeWhile (fun c => c != '}')
      let afterDflt := r3.dropWhile (fun c => c != '}')
      if dfltChars.isEmpty then none
      else
        match afterDflt with
        | '}' :: '}' :: r5 => some (String.mk keyChars, some (String.mk dfltChars), r5)
        | _ => none
    else
      match afterKey.dropWhile isJsWs with
      | '}' :: '}' :: r4 => some (String.mk keyChars, none, r4)
      | _ => none
  | _ => none

/-- Global left-to-right replacement, as `String.prototype.replace` with
a `g` regex: at each position try the regex; on a hit emit the callback
result and resume after the match, otherwise copy one character.  The
fuel argument only serves structural recursion; one unit per step
suffices because every step consumes at least one character, and
`replacePlaceholders` supplies `length + 1`. -/
def scanFuel (f : String → Option String → String) : Nat → List Char → List Char
  | 0, l => l
  | _ + 1, [] => []
  | n + 1, c :: cs =>
    match matchAt (c :: cs) with
    | some (key, dflt, rest) => (f key dflt).data ++ scanFuel f n rest
    | none => c :: scanFuel f n cs

/-- Model of `replacePlaceholders(str, data)`. -/
def replacePlaceholders (tpl : String) (data : JsVal) : String :=
  String.mk (scanFuel (renderMarker data) (tpl.data.length + 1) tpl.data)

/- ===== Brand/Locale Resolver (src/index.js lines 222-249) ===== -/

/-- Metadata map of one Stripe object, absent keys included. -/
def Metadata : Type := String → Option String

/-- The metadata sources `resolveBrandLocale` consults, in tier order:
invoice, expanded customer, first line price, first line product.  An
absent object or absent metadata collapses to `none`, as the optional
chaining `obj?.metadata?.[key]` does. -/
structure EventCtx where
  invMeta : Option Metadata
  custMeta : Option Metadata
  priceMeta : Option Metadata
  productMeta : Option Metadata

/-- Model of `pickMeta(obj, key)`: the trimmed lower-cased string value,
with the empty string collapsed to absent by the trailing `|| null`. -/
def pickMeta (md : Option Metadata) (key : String) : Option String :=
  match md with
  | none => none
  | some m =>
    match m key with
    | none => none
    | some v =>
      let t := lowerStr (jsTrimStr v)
      if t = "" then none else some t

/-- Model of `a || b` on `pickMeta` results; `pickMeta` never yields an
empty string, so JavaScript truthiness coincides with presence. -/
def jsOrOpt (a b : Option String) : Option String :=
  match a with
  | some v => some v
  | none => b

/-- Model of `normalizeBrand(v)`. -/
def normalizeBrand : Option String → Option String
  | some s => if s = "trueweb" then some "trueweb" else if s = "yokweb" then some "yokweb" else none
  | none => none

/-- Model of `normalizeLocale(v)`. -/
def normalizeLocale : Option String → Option String
  | some s => if s = "pl" then some "pl" else if s = "en" then some "en" else none
  | none => none

/-- Model of `resolveBrandLocale(\x7binv, customer, lineMeta\x7d)`;
`brandDefault` is the `BRAND_DEFAULT` environment value. -/
def resolveBrandLocale (brandDefault : String) (e : EventCtx) : String × String :=
  let candBrand := normalizeBrand
    (jsOrOpt (pickMeta e.invMeta "brand")
      (jsOrOpt (pickMeta e.custMeta "brand")
        (jsOrOpt (pickMeta e.priceMeta "brand") (pickMeta e.productMeta "brand"))))
  let candLocale := normalizeLocale
    (jsOrOpt (pickMeta e.invMeta "locale")
      (jsOrOpt (pickMeta e.custMeta "locale")
        (jsOrOpt (pickMeta e.priceMeta "locale") (pickMeta e.productMeta "locale"))))
  (candBrand.getD brandDefault, candLocale.getD "en")

/-- The `brandKey` argument the webhook handler passes to `renderEmail`
(src/index.js line 400): the literal string "yokweb", independent of the
event. -/
def webhookRenderBrandKey (_e : EventCtx) : String := "yokweb"

/-- The `purchaseSite` field of the same `renderEmail` call
(src/index.js line 410), which does use the resolved brand. -/
def webhookPurchaseSite (brandDefault : String) (e : EventCtx) : String :=
  if (resolveBrandLocale brandDefault e).1 = "trueweb" then "trueweb.pl" else "yokweb.com"

/- ===== Recipient Resolver (src/index.js lines 252-263 and 343) ===== -/

/-- The invoice email fields `resolveRecipient` reads. -/
structure InvRec where
  customer_email : Option String
  account_email : Option String

/-- Model of `resolveRecipient(inv)` with the `TEST_TO` environment
value passed explicitly. -/
def resolveRecipient (testTo : Option String) (inv : InvRec) : Option String :=
  let invEmail := jsOrStr inv.customer_email (jsOrStr inv.account_email none)
  if truthyS testTo &&
      (!(truthyS invEmail) ||
        (match invEmail with
         | some s => isExampleDomain s
         | none => false)) then
    testTo
  else invEmail

/-- Model of the call-site composition
`resolveRecipient(inv) || customerObj?.email || null` (line 343). -/
def webhookRecipient (testTo : Option String) (inv : InvRec) (custEmail : Option String) :
    Option String :=
  jsOrStr (resolveRecipient testTo inv) (jsOrStr custEmail none)

/- ===== Suppression Gate (src/index.js lines 138-180 and 349-362) ===== -/

/-- The fixed TTL `SUPPRESS_TTL_MS = 24 * 60 * 60 * 1000`. -/
def SUPPRESS_TTL_MS : Nat := 24 * 60 * 60 * 1000

/-- The local suppression cache `suppressed`: email to first-seen
timestamp (milliseconds). -/
def SuppressionCache : Type := String → Option Nat

/-- Model of `isSuppressed(email)`: the boolean answer together with the
cache after the lazy eviction of an expired entry.  A stored timestamp
of 0 is falsy in JavaScript and is treated as absent without eviction;
real timestamps come from `Date.now()` and are positive. -/
def isSuppressed (now : Nat) (cache : SuppressionCache) (email : String) :
    Bool × SuppressionCache :=
  match cache email with
  | none => (false, cache)
  | some ts =>
    if ts = 0 then (false, cache)
    else if SUPPRESS_TTL_MS < now - ts then
      (false, fun e => if e = email then none else cache e)
    else (true, cache)

/-- Model of `noteSuppressed(email)`. -/
def noteSuppressed (now : Nat) (cache : SuppressionCache) (email : String) : SuppressionCache :=
  fun e => if e = email then some now else cache e

/-- Outcome of one `GetSuppressedDestinationCommand` call: a response
carrying `SuppressionAttributes.Reason` when present, or a raised error
identified by its `name` (`"NotFoundException"` for an address the
registry does not know). -/
inductive SesAnswer where
  | response (reason : Option String)
  | failure (name : String)

/-- Model of `isSuppressedInSES`: true exactly on a response with a
truthy `Reason`; every caught error - the not-found case and any
transport or auth failure alike - yields false, and the function never
re-raises. -/
def isSuppressedInSES : SesAnswer → Bool
  | .response (some r) => r != ""
  | .response none => false
  | .failure _ => false

/-- Decision of the suppression phase of the webhook handler. -/
inductive GateOutcome where
  | deniedLocal
  | deniedSes
  | allowed
deriving DecidableEq

/-- The suppression phase of the handler (lines 349-362): the local
check first; only when it allows is the authoritative SES answer
consulted (the middle component records whether it was), and a positive
authoritative answer is written back into the local cache via
`noteSuppressed`. -/
def suppressionGate (now : Nat) (cache : SuppressionCache) (email : String) (ses : SesAnswer) :
    GateOutcome × Bool × SuppressionCache :=
  let r := isSuppressed now cache email
  if r.1 then (.deniedLocal, false, r.2)
  else if isSuppressedInSES ses then (.deniedSes, true, noteSuppressed now r.2 email)
  else (.allowed, true, r.2)

/-- Model of the regex `/suppression list|suppressed|complaint/i` tested
against the transport error text (line 434). -/
def sendFailureKeywordHit (msg : String) : Bool :=
  containsL ("suppression list").data (msg.data.map asciiLower) ||
  containsL ("suppressed").data (msg.data.map asciiLower) ||
  containsL ("complaint").data (msg.data.map asciiLower)

/-- The catch block of the send attempt (lines 430-439): on a keyword
hit the recipient is noted in the local suppression cache. -/
def handleSendFailure (now : Nat) (cache : SuppressionCache) (dest msg : String) :
    SuppressionCache :=
  if sendFailureKeywordHit msg then noteSuppressed now cache dest else cache

/- ===== Notification Renderer (src/src/renderEmail.js) ===== -/

/-- The legacy-id table `LEGACY_TO_NEW` as a lookup. -/
def LEGACY_TO_NEW (id : String) : Option String :=
  if id = "invoice-paid" then some "payment-paid"
  else if id = "subscription-renewed" then some "payment-paid-sub-renew"
  else if id = "payment-failed" then some "payment-failed"
  else if id = "refund-issued" then some "refund-issued"
  else none

/-- Model of `normalizeNotificationId(id) = LEGACY_TO_NEW[id] || id`. -/
def normalizeNotificationId (id : String) : String :=
  (LEGACY_TO_NEW id).getD id

/-- Interpolation of a possibly-null value into a template literal:
`null` prints as "null". -/
def jsInterp : Option String → String
  | none => "null"
  | some s => s

/-- The `tryPaths` list of `loadTemplate` (renderEmail.js lines 38-43). -/
def templateTryPaths (bucket brand notificationId : String) (serviceId : Option String)
    (locale : String) : List String :=
  [bucket ++ "/" ++ brand ++ "/" ++ notificationId ++ "/" ++ locale ++ ".html",
   bucket ++ "/" ++ brand ++ "/" ++ notificationId ++ "/en.html",
   bucket ++ "/" ++ brand ++ "/services/" ++ jsInterp serviceId ++ "/" ++ locale ++ ".html",
   bucket ++ "/" ++ brand ++ "/services/" ++ jsInterp serviceId ++ "/en.html"]

/-- Model of `loadTemplate`: the object store is a function from the
full path to the fetched text (`none` models a throwing `readGcsText`);
the first hit wins and a miss everywhere yields the built-in fallback
document. -/
def loadTemplate (store : String → Option String) (bucket brand notificationId : String)
    (serviceId : Option String) (locale : String) : String :=
  match (templateTryPaths bucket brand notificationId serviceId locale).findSome? store with
  | some t => t
  | none =>
    "<!doctype html><html><body><p>Fallback: " ++ notificationId ++ " (" ++ locale ++
      ")</p></body></html>"

/-- The two subject paths of `loadSubject` (renderEmail.js lines 55-58). -/
def subjectTryPaths (bucket brand notificationId locale : String) : List String :=
  [bucket ++ "/" ++ brand ++ "/" ++ notificationId ++ "/" ++ locale ++ ".subject.txt",
   bucket ++ "/" ++ brand ++ "/" ++ notificationId ++ "/en.subject.txt"]

/-- Model of the BOM strip: one leading U+FEFF removed. -/
def stripBom (s : String) : String :=
  match s.data with
  | c :: t => if c = '\uFEFF' then String.mk t else s
  | [] => s

/-- Model of `loadSubject`: first successful fetch, BOM-stripped;
`none` when both paths miss. -/
def loadSubject (store : String → Option String) (bucket brand notificationId locale : String) :
    Option String :=
  match (subjectTryPaths bucket brand notificationId locale).findSome? store with
  | some t => some (stripBom t)
  | none => none

/-- A JavaScript `null`-or-string value as a data bag member. -/
def jsOfOptStr : Option String → JsVal
  | none => .nul
  | some s => .str s

/-- The merged data bag
`\x7b ...systemData, brand, locale, notificationId, serviceId \x7d`
(renderEmail.js line 101): with first-match lookup the four explicit
keys listed first shadow any same-named key of `systemData`, exactly as
the object spread does. -/
def mergeData (systemData : List (String × JsVal)) (brandCfg : JsVal)
    (locale normalized : String) (serviceId : Option String) : JsVal :=
  .obj ([("brand", brandCfg), ("locale", .str locale), ("notificationId", .str normalized),
    ("serviceId", jsOfOptStr serviceId)] ++ systemData)

/-- Model of `defaultSubject(notificationId, data)`
(renderEmail.js lines 120-133). -/
def defaultSubject (notificationId : String) (data : JsVal) : String :=
  let brandName := jsToString (jsGet (jsGet data "brand") "brandName")
  if notificationId = "payment-paid" then
    jsTrimStr (brandName ++ ": Payment received — order " ++
      (if jsTruthy (jsGet data "invoiceNo") then jsToString (jsGet data "invoiceNo") else ""))
  else if notificationId = "payment-failed" then brandName ++ ": Payment failed"
  else if notificationId = "payment-paid-sub-renew" then brandName ++ ": Subscription renewed"
  else if notificationId = "refund-issued" then brandName ++ ": Refund processed"
  else brandName ++ ": Update"

/-- The subject computation of `renderEmail` (lines 84-108): normalize
the kind, build the merged data bag, look the subject template up at
the normalized kind and substitute into it, or fall back to
`defaultSubject`.  The parsed brand JSON is the input `brandCfg`. -/
def renderEmailSubject (store : String → Option String) (bucket brandKey locale : String)
    (notificationId : String) (serviceId : Option String) (brandCfg : JsVal)
    (systemData : List (String × JsVal)) : String :=
  let normalized := normalizeNotificationId notificationId
  let data := mergeData systemData brandCfg locale normalized serviceId
  match loadSubject store bucket brandKey normalized locale with
  | some tpl => replacePlaceholders tpl data
  | none => defaultSubject normalized data

/-- The HTML template paths `renderEmail` has `loadTemplate` consult:
constructed from the normalized kind (lines 86-93). -/
def renderEmailHtmlPaths (bucket brandKey notificationId : String) (serviceId : Option String)
    (locale : String) : List String :=
  templateTryPaths bucket brandKey (normalizeNotificationId notificationId) serviceId locale

/-- The subject paths `renderEmail` has `loadSubject` consult (lines
95-99). -/
def renderEmailSubjectPaths (bucket brandKey notificationId locale : String) : List String :=
  subjectTryPaths bucket brandKey (normalizeNotificationId notificationId) locale

/- ===== Spec-side definitions for the corrected claims ===== -/

/-- Written from the amended C2 wording: the candidate for a field is
the value at the first tier whose metadata entry is a non-empty string
after trimming, lower-cased (which is what `pickMeta` computes); a
candidate outside the valid set falls through to the default, not to a
lower tier. -/
def firstTierValue (e : EventCtx) (key : String) : Option String :=
  [e.invMeta, e.custMeta, e.priceMeta, e.productMeta].findSome? (fun md => pickMeta md key)

/-- The amended C2 resolution, brand and locale independent. -/
def resolveBrandLocaleSpec (brandDefault : String) (e : EventCtx) : String × String :=
  ((match firstTierValue e "brand" with
    | some v => if v = "trueweb" ∨ v = "yokweb" then v else brandDefault
    | none => brandDefault),
   (match firstTierValue e "locale" with
    | some v => if v = "pl" ∨ v = "en" then v else "en"
    | none => "en"))

/-- The invoice-level candidate of the amended C5 wording: the first
truthy of the explicit invoice email and the account email. -/
def invoiceCandidate (inv : InvRec) : Option String :=
  if truthyS inv.customer_email then inv.customer_email
  else if truthyS inv.account_email then inv.account_email
  else none

/-- Written from the amended C5 wording: the test-routing override
considers only the invoice-level candidate; the customer-record email
is used only when no invoice-level candidate exists and no test address
is configured. -/
def recipientSpec (testTo : Option String) (inv : InvRec) (custEmail : Option String) :
    Option String :=
  match invoiceCandidate inv with
  | some c => if truthyS testTo && isExampleDomain c then testTo else some c
  | none =>
    if truthyS testTo then testTo
    else if truthyS custEmail then custEmail
    else none

/- ===== Concrete inputs used by the counterexamples ===== -/

/-- An invoice.paid event whose invoice metadata carries
`brand: "trueweb"` and nothing else. -/
def eventTruewebInv : EventCtx :=
  ⟨some (fun k => if k = "brand" then some "trueweb" else none), none, none, none⟩

/-- An event with an unrecognized brand at the invoice tier and a valid
brand at the customer tier. -/
def eventInvalidThenValid : EventCtx :=
  ⟨some (fun k => if k = "brand" then some "acme" else none),
   some (fun k => if k = "brand" then some "trueweb" else none), none, none⟩

/- ===== Helper lemmas ===== -/

theorem stringMk_data (s : String) : String.mk s.data = s := by
  cases s
  rfl

theorem ws_cases (c : Char) (h : isJsWs c = true) :
    c = ' ' ∨ c = '\t' ∨ c = '\n' ∨ c = '\r' ∨ c = '\x0b' ∨ c = '\x0c' := by
  simp only [isJsWs, Bool.or_eq_true, beq_iff_eq] at h
  tauto

theorem ws_not_wordDot (c : Char) (h : isJsWs c = true) : isWordDot c = false := by
  rcases ws_cases c h with rfl | rfl | rfl | rfl | rfl | rfl <;> decide

theorem ws_ne_pipe (c : Char) (h : isJsWs c = true) : c ≠ '|' := by
  rcases ws_cases c h with rfl | rfl | rfl | rfl | rfl | rfl <;> decide

theorem wordDot_not_ws (c : Char) (h : isWordDot c = true) : isJsWs c = false := by
  by_cases hw : isJsWs c = true
  · rw [ws_not_wordDot c hw] at h
    exact absurd h (by decide)
  · exact eq_false_of_ne_true hw

theorem takeWhile_neg_all {p : Char → Bool} {l : List Char}
    (h : ∀ c ∈ l, p c = false) : l.takeWhile p = [] := by
  cases l with
  | nil => rfl
  | cons c t => simp [List.takeWhile_cons, h c (by simp)]

theorem dropWhile_neg_all {p : Char → Bool} {l : List Char}
    (h : ∀ c ∈ l, p c = false) : l.dropWhile p = l := by
  cases l with
  | nil => rfl
  | cons c t => simp [List.dropWhile_cons, h c (by simp)]

theorem scanFuel_nil (f : String → Option String → String) (n : Nat) :
    scanFuel f n [] = [] := by
  cases n <;> rfl

theorem matchAt_nopipe (w1 k w2 : List Char)
    (h1 : ∀ c ∈ w1, isJsWs c = true) (hk : k ≠ []) (hkall : ∀ c ∈ k, isWordDot c = true)
    (h2 : ∀ c ∈ w2, isJsWs c = true) :
    matchAt ('{' :: '{' :: (w1 ++ (k ++ (w2 ++ ['}', '}'])))) = some (String.mk k, none, []) := by
  have htailall : ∀ c ∈ w2 ++ ['}', '}'], isWordDot c = false := by
    intro c hc
    rcases List.mem_append.mp hc with hw | hb
    · exact ws_not_wordDot c (h2 c hw)
    · have hcb : c = '}' := by simpa using hb
      rw [hcb]
      decide
  have hdropWs : (w1 ++ (k ++ (w2 ++ ['}', '}']))).dropWhile isJsWs = k ++ (w2 ++ ['}', '}']) := by
    rw [List.dropWhile_append_of_pos h1]
    cases k with
    | nil => exact absurd rfl hk
    | cons c t =>
      simp [List.dropWhile_cons, wordDot_not_ws c (hkall c (by simp))]
  have htake : (k ++ (w2 ++ ['}', '}'])).takeWhile isWordDot = k := by
    rw [List.takeWhile_append_of_pos hkall, takeWhile_neg_all htailall, List.append_nil]
  have hdropKey : (k ++ (w2 ++ ['}', '}'])).dropWhile isWordDot = w2 ++ ['}', '}'] := by
    rw [List.dropWhile_append_of_pos hkall, dropWhile_neg_all htailall]
  have hhead : ((w2 ++ ['}', '}']).head? = some '|') = False := by
    cases w2 with
    | nil => simp
    | cons c t =>
      simp only [List.cons_append, List.head?_cons, Option.some.injEq, eq_iff_iff, iff_false]
      exact ws_ne_pipe c (h2 c (by simp))
  have hdrop2 : (w2 ++ ['}', '}']).dropWhile isJsWs = ['}', '}'] := by
    rw [List.dropWhile_append_of_pos h2]
    decide
  simp only [matchAt, hdropWs, htake, hdropKey, hhead, hdrop2, if_false]
  have hne : k.isEmpty = false := by
    cases k with
    | nil => exact absurd rfl hk
    | cons c t => rfl
  rw [hne]
  simp

theorem matchAt_pipe (w1 k d : List Char)
    (h1 : ∀ c ∈ w1, isJsWs c = true) (hk : k ≠ []) (hkall : ∀ c ∈ k, isWordDot c = true)
    (hd : d ≠ []) (hdall : ∀ c ∈ d, c ≠ '}') :
    matchAt ('{' :: '{' :: (w1 ++ (k ++ ('|' :: (d ++ ['}', '}']))))) =
      some (String.mk k, some (String.mk d), []) := by
  have hdallb : ∀ c ∈ d, (c != '}') = true := by
    intro c hc
    simpa using hdall c hc
  have hdropWs : (w1 ++ (k ++ ('|' :: (d ++ ['}', '}'])))).dropWhile isJsWs
      = k ++ ('|' :: (d ++ ['}', '}'])) := by
    rw [List.dropWhile_append_of_pos h1]
    cases k with
    | nil => exact absurd rfl hk
    | cons c t =>
      simp [List.dropWhile_cons, wordDot_not_ws c (hkall c (by simp))]
  have hpipe : isWordDot '|' = false := by decide
  have hbrace : (('}' : Char) != '}') = false := by decide
  have htake : (k ++ ('|' :: (d ++ ['}', '}']))).takeWhile isWordDot = k := by
    rw [List.takeWhile_append_of_pos hkall]
    simp [List.takeWhile_cons, hpipe]
  have hdropKey : (k ++ ('|' :: (d ++ ['}', '}']))).dropWhile isWordDot
      = '|' :: (d ++ ['}', '}']) := by
    rw [List.dropWhile_append_of_pos hkall]
    simp [List.dropWhile_cons, hpipe]
  have htaked : (d ++ ['}', '}']).takeWhile (fun c => c != '}') = d := by
    rw [List.takeWhile_append_of_pos hdallb]
    simp [List.takeWhile_cons, hbrace]
  have hdropd : (d ++ ['}', '}']).dropWhile (fun c => c != '}') = ['}', '}'] := by
    rw [List.dropWhile_append_of_pos hdallb]
    simp [List.dropWhile_cons, hbrace]
  have hnek : k.isEmpty = false := by
    cases k with
    | nil => exact absurd rfl hk
    | cons c t => rfl
  have hned : d.isEmpty = false := by
    cases d with
    | nil => exact absurd rfl hd
    | cons c t => rfl
  simp only [matchAt, hdropWs, htake, hdropKey, hnek, List.head?_cons, List.tail_cons,
    htaked, hdropd, hned]
  simp

theorem repl_marker_nopipe (data : JsVal) (ws1 key ws2 : String)
    (h1 : ∀ c ∈ ws1.data, isJsWs c = true)
    (hk : key.data ≠ []) (hkall : ∀ c ∈ key.data, isWordDot c = true)
    (h2 : ∀ c ∈ ws2.data, isJsWs c = true) :
    replacePlaceholders ("\x7b\x7b" ++ ws1 ++ key ++ ws2 ++ "\x7d\x7d") data
      = renderMarker data key none := by
  have hdata : ("\x7b\x7b" ++ ws1 ++ key ++ ws2 ++ "\x7d\x7d").data
      = '{' :: '{' :: (ws1.data ++ (key.data ++ (ws2.data ++ ['}', '}']))) := by
    have hb1 : ("\x7b\x7b" : String).data = ['{', '{'] := rfl
    have hb2 : ("\x7d\x7d" : String).data = ['}', '}'] := rfl
    simp [String.data_append, hb1, hb2]
  rw [replacePlaceholders, hdata]
  simp only [List.length_cons, scanFuel,
    matchAt_nopipe ws1.data key.data ws2.data h1 hk hkall h2, stringMk_data,
    scanFuel_nil, List.append_nil]

theorem repl_marker_pipe (data : JsVal) (ws1 key dflt : String)
    (h1 : ∀ c ∈ ws1.data, isJsWs c = true)
    (hk : key.data ≠ []) (hkall : ∀ c ∈ key.data, isWordDot c = true)
    (hd : dflt.data ≠ []) (hdall : ∀ c ∈ dflt.data, c ≠ '}') :
    replacePlaceholders ("\x7b\x7b" ++ ws1 ++ key ++ "|" ++ dflt ++ "\x7d\x7d") data
      = renderMarker data key (some dflt) := by
  have hdata : ("\x7b\x7b" ++ ws1 ++ key ++ "|" ++ dflt ++ "\x7d\x7d").data
      = '{' :: '{' :: (ws1.data ++ (key.data ++ ('|' :: (dflt.data ++ ['}', '}'])))) := by
    have hb1 : ("\x7b\x7b" : String).data = ['{', '{'] := rfl
    have hb2 : ("\x7d\x7d" : String).data = ['}', '}'] := rfl
    have hb3 : ("|" : String).data = ['|'] := rfl
    simp [String.data_append, hb1, hb2, hb3]
  rw [replacePlaceholders, hdata]
  simp only [List.length_cons, scanFuel,
    matchAt_pipe ws1.data key.data dflt.data h1 hk hkall hd hdall, stringMk_data,
    scanFuel_nil, List.append_nil]

theorem str_append_empty (s : String) : s ++ "" = s := by
  cases s with
  | mk data =>
    show String.mk (data ++ []) = String.mk data
    rw [List.append_nil]

theorem marker_ne_word (key w : String) (hw : w.data.head? ≠ some '{') :
    ("\x7b\x7b" ++ key ++ "\x7d\x7d" : String) ≠ w := by
  intro h
  have h2 := congrArg String.data h
  have hb1 : ("\x7b\x7b" : String).data = ['{', '{'] := rfl
  simp only [String.data_append, hb1, List.cons_append, List.nil_append] at h2
  rw [← h2] at hw
  simp at hw

/-- C3 counterexample: a marker written with whitespace between the key
and the pipe is not recognized by the regex at all; the claim predicts
the default "friend" is substituted for the unresolvable key, but the
code returns the template unchanged. -/
theorem replacePlaceholders_space_before_pipe_unmatched :
    replacePlaceholders "\x7b\x7b name | friend \x7d\x7d" (JsVal.obj [])
        = "\x7b\x7b name | friend \x7d\x7d"
  ∧ ("\x7b\x7b name | friend \x7d\x7d" : String) ≠ "friend" := by
  constructor
  · decide
  · decide

/-- C3 amended: a marker is recognized when whitespace follows the
double open brace and precedes the double close brace, but the pipe
must directly follow the key; the default capture is trimmed; an
unresolved marker without a default is re-emitted as the key wrapped in
braces, with the original interior whitespace dropped. -/
theorem replacePlaceholders_marker_semantics (data : JsVal) (ws1 key ws2 dflt : String)
    (h1 : ∀ c ∈ ws1.data, isJsWs c = true)
    (hk : key.data ≠ []) (hkall : ∀ c ∈ key.data, isWordDot c = true)
    (h2 : ∀ c ∈ ws2.data, isJsWs c = true)
    (hd : dflt.data ≠ []) (hdall : ∀ c ∈ dflt.data, c ≠ '}') :
    (replacePlaceholders ("\x7b\x7b" ++ ws1 ++ key ++ ws2 ++ "\x7d\x7d") data
        = match walk data (splitDots key) with
          | some v => if isNullish v then "\x7b\x7b" ++ key ++ "\x7d\x7d" else jsToString v
          | none => "\x7b\x7b" ++ key ++ "\x7d\x7d")
  ∧ (replacePlaceholders ("\x7b\x7b" ++ ws1 ++ key ++ "|" ++ dflt ++ "\x7d\x7d") data
        = match walk data (splitDots key) with
          | some v => if isNullish v then jsTrimStr dflt else jsToString v
          | none => jsTrimStr dflt) := by
  constructor
  · rw [repl_marker_nopipe data ws1 key ws2 h1 hk hkall h2]
    cases h : walk data (splitDots key) <;> simp [renderMarker, markerFallback, h]
  · rw [repl_marker_pipe data ws1 key dflt h1 hk hkall hd hdall]
    cases h : walk data (splitDots key) <;> simp [renderMarker, markerFallback, h]

theorem replacePlaceholders_marker_semantics_witness :
    replacePlaceholders ("\x7b\x7b" ++ " " ++ "billing.city" ++ " " ++ "\x7d\x7d")
        (JsVal.obj [("billing", JsVal.obj [("city", JsVal.str "Warsaw")])]) = "Warsaw"
  ∧ replacePlaceholders ("\x7b\x7b" ++ "" ++ "missing" ++ "|" ++ " Hello there " ++ "\x7d\x7d")
        (JsVal.obj []) = "Hello there" := by
  constructor
  · have h := (replacePlaceholders_marker_semantics
      (JsVal.obj [("billing", JsVal.obj [("city", JsVal.str "Warsaw")])])
      " " "billing.city" " " "x" (by decide) (by decide) (by decide) (by decide)
      (by decide) (by decide)).1
    rw [h]
    decide
  · have h := (replacePlaceholders_marker_semantics (JsVal.obj [])
      "" "missing" "" " Hello there " (by decide) (by decide) (by decide) (by decide)
      (by decide) (by decide)).2
    rw [h]
    decide

/-- C10: a dotted path that resolves to null or undefined is handled
exactly as a missing key, and the nullish value is never stringified
into the output: the default is substituted when supplied, otherwise
the marker re-appears, which is never the text "null" or "undefined". -/
theorem replacePlaceholders_nullish_like_missing (data : JsVal) (key dflt : String)
    (hk : key.data ≠ []) (hkall : ∀ c ∈ key.data, isWordDot c = true)
    (hd : dflt.data ≠ []) (hdall : ∀ c ∈ dflt.data, c ≠ '}')
    (hnull : walk data (splitDots key) = some JsVal.nul ∨
             walk data (splitDots key) = some JsVal.undefined) :
    replacePlaceholders ("\x7b\x7b" ++ key ++ "|" ++ dflt ++ "\x7d\x7d") data = jsTrimStr dflt
  ∧ replacePlaceholders ("\x7b\x7b" ++ key ++ "\x7d\x7d") data = "\x7b\x7b" ++ key ++ "\x7d\x7d"
  ∧ ("\x7b\x7b" ++ key ++ "\x7d\x7d" : String) ≠ "null"
  ∧ ("\x7b\x7b" ++ key ++ "\x7d\x7d" : String) ≠ "undefined" := by
  have hpipe := repl_marker_pipe data "" key dflt (by simp) hk hkall hd hdall
  have hnop := repl_marker_nopipe data "" key "" (by simp) hk hkall (by simp)
  rw [str_append_empty, str_append_empty] at hnop
  rw [str_append_empty] at hpipe
  refine ⟨?_, ?_, ?_, ?_⟩
  · rw [hpipe]
    rcases hnull with h | h <;> simp [renderMarker, markerFallback, h, isNullish]
  · rw [hnop]
    rcases hnull with h | h <;> simp [renderMarker, markerFallback, h, isNullish]
  · exact marker_ne_word key "null" (by decide)
  · exact marker_ne_word key "undefined" (by decide)

theorem replacePlaceholders_nullish_like_missing_witness :
    replacePlaceholders ("\x7b\x7b" ++ "trackOrder" ++ "|" ++ "N/A" ++ "\x7d\x7d")
        (JsVal.obj [("trackOrder", JsVal.nul)]) = "N/A"
  ∧ replacePlaceholders ("\x7b\x7b" ++ "trackOrder" ++ "\x7d\x7d")
        (JsVal.obj [("trackOrder", JsVal.nul)])
      = "\x7b\x7b" ++ "trackOrder" ++ "\x7d\x7d" := by
  have h := replacePlaceholders_nullish_like_missing (JsVal.obj [("trackOrder", JsVal.nul)])
    "trackOrder" "N/A" (by decide) (by decide) (by decide) (by decide) (Or.inl rfl)
  refine ⟨?_, h.2.1⟩
  rw [h.1]
  decide

/-- C1: the webhook handler hardcodes the renderer brand key to
"yokweb" although the Brand/Locale Resolver returned "trueweb" for this
event, and the sibling `purchaseSite` field of the very same call does
follow the resolved brand. -/
theorem renderEmail_brandKey_hardcoded :
    (resolveBrandLocale "yokweb" eventTruewebInv).1 = "trueweb"
  ∧ webhookRenderBrandKey eventTruewebInv = "yokweb"
  ∧ webhookRenderBrandKey eventTruewebInv ≠ (resolveBrandLocale "yokweb" eventTruewebInv).1
  ∧ webhookPurchaseSite "yokweb" eventTruewebInv = "trueweb.pl" := by
  refine ⟨by decide, rfl, by decide, by decide⟩

/-- C2 counterexample: an unrecognized brand value at the invoice tier
short-circuits the metadata chain; the valid customer-tier value
"trueweb" is never reached and the default "yokweb" is returned, where
the claim requires "trueweb". -/
theorem resolveBrandLocale_no_tier_fallthrough :
    (resolveBrandLocale "yokweb" eventInvalidThenValid).1 = "yokweb"
  ∧ (resolveBrandLocale "yokweb" eventInvalidThenValid).1 ≠ "trueweb" := by
  constructor
  · decide
  · decide

/-- C2 amended: for each of brand and locale independently, the
candidate is the first tier (invoice, customer, price, product) whose
metadata value is a non-empty string after trimming, lower-cased; the
candidate is returned when it names a valid brand or locale and the
default is returned otherwise, so an invalid candidate falls through to
the default rather than to a lower tier. -/
theorem resolveBrandLocale_eq_spec (brandDefault : String) (e : EventCtx) :
    resolveBrandLocale brandDefault e = resolveBrandLocaleSpec brandDefault e := by
  unfold resolveBrandLocale resolveBrandLocaleSpec firstTierValue
  simp only [List.findSome?_cons, List.findSome?_nil, Prod.mk.injEq]
  constructor
  · cases h1 : pickMeta e.invMeta "brand" with
    | some v => simp [jsOrOpt, normalizeBrand, h1]; split <;> split <;> simp_all
    | none =>
      cases h2 : pickMeta e.custMeta "brand" with
      | some v => simp [jsOrOpt, normalizeBrand, h1, h2]; split <;> split <;> simp_all
      | none =>
        cases h3 : pickMeta e.priceMeta "brand" with
        | some v => simp [jsOrOpt, normalizeBrand, h1, h2, h3]; split <;> split <;> simp_all
        | none =>
          cases h4 : pickMeta e.productMeta "brand" with
          | some v => simp [jsOrOpt, normalizeBrand, h1, h2, h3, h4]; split <;> split <;> simp_all
          | none => simp [jsOrOpt, normalizeBrand, h1, h2, h3, h4]
  · cases h1 : pickMeta e.invMeta "locale" with
    | some v => simp [jsOrOpt, normalizeLocale, h1]; split <;> split <;> simp_all
    | none =>
      cases h2 : pickMeta e.custMeta "locale" with
      | some v => simp [jsOrOpt, normalizeLocale, h1, h2]; split <;> split <;> simp_all
      | none =>
        cases h3 : pickMeta e.priceMeta "locale" with
        | some v => simp [jsOrOpt, normalizeLocale, h1, h2, h3]; split <;> split <;> simp_all
        | none =>
          cases h4 : pickMeta e.productMeta "locale" with
          | some v => simp [jsOrOpt, normalizeLocale, h1, h2, h3, h4]; split <;> split <;> simp_all
          | none => simp [jsOrOpt, normalizeLocale, h1, h2, h3, h4]

/-- C5 counterexample: the invoice carries no email, the customer
record carries a real address, and a test-routing address is
configured; the claim requires the customer-record candidate
"real@gmail.com" to be kept (its domain is not the example domain), but
the code applies the override before ever considering the
customer-record email and returns the test address. -/
theorem recipient_override_ignores_customer_candidate :
    webhookRecipient (some "test@corp.net") ⟨none, none⟩ (some "real@gmail.com")
        = some "test@corp.net"
  ∧ webhookRecipient (some "test@corp.net") ⟨none, none⟩ (some "real@gmail.com")
        ≠ some "real@gmail.com" := by
  constructor
  · decide
  · decide

/-- C5 amended: the destination priority is invoice-level email then
account-level email; when a test-routing address is configured the
override fires exactly when no invoice-level candidate exists or the
invoice-level candidate ends in the example domain, without consulting
the customer-record email; the customer-record email is used only when
no invoice-level candidate exists and no test address is configured,
and the result is absent only when nothing at all is available. -/
theorem webhookRecipient_eq_spec (testTo : Option String) (inv : InvRec)
    (custEmail : Option String) :
    webhookRecipient testTo inv custEmail = recipientSpec testTo inv custEmail := by
  obtain ⟨ce, ae⟩ := inv
  have hcand : jsOrStr ce (jsOrStr ae none) = invoiceCandidate ⟨ce, ae⟩ := by
    unfold invoiceCandidate jsOrStr
    by_cases h1 : truthyS ce = true
    · simp [h1]
    · have h1f : truthyS ce = false := eq_false_of_ne_true h1
      by_cases h2 : truthyS ae = true
      · simp [h1f, h2, truthyS]
      · simp [h1f, eq_false_of_ne_true h2, truthyS]
  have hcandT : ∀ s, invoiceCandidate ⟨ce, ae⟩ = some s → truthyS (some s) = true := by
    intro s h
    unfold invoiceCandidate at h
    by_cases h1 : truthyS ce = true
    · rw [if_pos h1] at h
      rw [← h]
      exact h1
    · rw [if_neg h1] at h
      by_cases h2 : truthyS ae = true
      · rw [if_pos h2] at h
        rw [← h]
        exact h2
      · rw [if_neg h2] at h
        cases h
  show jsOrStr (resolveRecipient testTo ⟨ce, ae⟩) (jsOrStr custEmail none)
      = recipientSpec testTo ⟨ce, ae⟩ custEmail
  unfold resolveRecipient recipientSpec
  simp only [hcand]
  cases hc : invoiceCandidate ⟨ce, ae⟩ with
  | none =>
    have hnone : truthyS (none : Option String) = false := rfl
    simp only [hnone, Bool.not_false, Bool.true_or, Bool.and_true]
    by_cases ht : truthyS testTo = true
    · simp [ht, jsOrStr]
    · have htf : truthyS testTo = false := eq_false_of_ne_true ht
      simp [htf, jsOrStr, hnone]
  | some s =>
    have hs := hcandT s hc
    by_cases ht : truthyS testTo = true
    · by_cases hex : isExampleDomain s = true
      · simp [ht, hex, hs, jsOrStr]
      · have hexf : isExampleDomain s = false := eq_false_of_ne_true hex
        simp [ht, hexf, hs, jsOrStr]
    · have htf : truthyS testTo = false := eq_false_of_ne_true ht
      simp [htf, hs, jsOrStr]

theorem gate_local_denies (now ts : Nat) (cache : SuppressionCache) (email : String)
    (ses : SesAnswer) (hts : cache email = some ts) (hpos : 0 < ts)
    (hfresh : now - ts ≤ SUPPRESS_TTL_MS) :
    suppressionGate now cache email ses = (.deniedLocal, false, cache) := by
  have hloc : isSuppressed now cache email = (true, cache) := by
    unfold isSuppressed
    rw [hts]
    simp [Nat.pos_iff_ne_zero.mp hpos, Nat.not_lt.mpr hfresh]
  unfold suppressionGate
  rw [hloc]
  simp

/-- C4: a locally cached suppression younger than the TTL denies the
send with the authoritative-lookup flag false; an entry older than the
TTL is reported absent by the local lookup, evicted from the returned
cache, and the authoritative check is reached. -/
theorem local_cache_gate_behavior (now ts : Nat) (cache : SuppressionCache) (email : String)
    (ses : SesAnswer) (hts : cache email = some ts) (hpos : 0 < ts) :
    (now - ts ≤ SUPPRESS_TTL_MS →
       suppressionGate now cache email ses = (.deniedLocal, false, cache))
  ∧ (SUPPRESS_TTL_MS < now - ts →
       (isSuppressed now cache email).1 = false
     ∧ (isSuppressed now cache email).2 email = none
     ∧ (suppressionGate now cache email ses).2.1 = true) := by
  constructor
  · intro hfresh
    exact gate_local_denies now ts cache email ses hts hpos hfresh
  · intro hold
    have hloc : isSuppressed now cache email
        = (false, fun e => if e = email then none else cache e) := by
      unfold isSuppressed
      rw [hts]
      simp [Nat.pos_iff_ne_zero.mp hpos, hold]
    refine ⟨by rw [hloc], by rw [hloc]; simp, ?_⟩
    unfold suppressionGate
    rw [hloc]
    by_cases hses : isSuppressedInSES ses = true
    · simp [hses]
    · simp [eq_false_of_ne_true hses]

theorem local_cache_gate_behavior_witness :
    suppressionGate 500 (fun e => if e = "payer@shop.io" then some 400 else none)
        "payer@shop.io" (SesAnswer.failure "Timeout")
      = (.deniedLocal, false, fun e => if e = "payer@shop.io" then some 400 else none) := by
  exact (local_cache_gate_behavior 500 400
    (fun e => if e = "payer@shop.io" then some 400 else none) "payer@shop.io"
    (SesAnswer.failure "Timeout") (by decide) (by decide)).1 (by decide)

/-- C6: the authoritative check answers false on the not-found
exception and on every other caught failure (it is total, hence never
re-raises), answers true only on a response with a truthy suppression
reason, and on that path the webhook gate stores the address into the
local cache. -/
theorem ses_check_fail_open (nm : String) (now : Nat) (cache : SuppressionCache)
    (email : String) (ses : SesAnswer) :
    isSuppressedInSES (.failure "NotFoundException") = false
  ∧ isSuppressedInSES (.failure nm) = false
  ∧ isSuppressedInSES (.response none) = false
  ∧ (isSuppressedInSES ses = true → ∃ reason, ses = .response (some reason) ∧ reason ≠ "")
  ∧ ((isSuppressed now cache email).1 = false → isSuppressedInSES ses = true →
       (suppressionGate now cache email ses).1 = .deniedSes
     ∧ (suppressionGate now cache email ses).2.2 email = some now) := by
  refine ⟨rfl, rfl, rfl, ?_, ?_⟩
  · intro h
    cases ses with
    | failure n => exact absurd h (by simp [isSuppressedInSES])
    | response r =>
      cases r with
      | none => exact absurd h (by simp [isSuppressedInSES])
      | some s =>
        refine ⟨s, rfl, ?_⟩
        simpa [isSuppressedInSES] using h
  · intro hloc hses
    refine ⟨?_, ?_⟩ <;> (unfold suppressionGate; simp [hloc, hses, noteSuppressed])

theorem ses_check_fail_open_witness :
    (suppressionGate 700 (fun _ => none) "b@c.de" (SesAnswer.response (some "BOUNCE"))).1
        = .deniedSes
  ∧ (suppressionGate 700 (fun _ => none) "b@c.de"
      (SesAnswer.response (some "BOUNCE"))).2.2 "b@c.de" = some 700 := by
  exact (ses_check_fail_open "AccessDenied" 700 (fun _ => none) "b@c.de"
    (SesAnswer.response (some "BOUNCE"))).2.2.2.2 (by decide) (by decide)

/-- C9: a transport failure whose error text contains one of the
rejection keywords, case-insensitively, writes the recipient into the
local suppression cache, and any event for the same address within the
TTL window is then denied by the local gate without the authoritative
check. -/
theorem transport_failure_notes_suppression (now later : Nat) (cache : SuppressionCache)
    (dest msg : String) (ses : SesAnswer)
    (hkw : containsL ("suppressed").data (msg.data.map asciiLower) = true
         ∨ containsL ("suppression list").data (msg.data.map asciiLower) = true
         ∨ containsL ("complaint").data (msg.data.map asciiLower) = true)
    (hpos : 0 < now) (hwin : later - now ≤ SUPPRESS_TTL_MS) :
    handleSendFailure now cache dest msg dest = some now
  ∧ suppressionGate later (handleSendFailure now cache dest msg) dest ses
      = (.deniedLocal, false, handleSendFailure now cache dest msg) := by
  have hhit : sendFailureKeywordHit msg = true := by
    unfold sendFailureKeywordHit
    rcases hkw with h | h | h <;> simp [h]
  have hcache : handleSendFailure now cache dest msg dest = some now := by
    unfold handleSendFailure
    rw [if_pos hhit]
    unfold noteSuppressed
    simp
  refine ⟨hcache, ?_⟩
  exact gate_local_denies later now (handleSendFailure now cache dest msg) dest ses
    hcache hpos hwin

theorem transport_failure_notes_suppression_witness :
    handleSendFailure 10 (fun _ => none) "x@y.zz"
        "554 Address is on the SES suppression list" "x@y.zz" = some 10
  ∧ suppressionGate 20
      (handleSendFailure 10 (fun _ => none) "x@y.zz"
        "554 Address is on the SES suppression list") "x@y.zz" (SesAnswer.failure "E")
      = (.deniedLocal, false,
          handleSendFailure 10 (fun _ => none) "x@y.zz"
            "554 Address is on the SES suppression list") := by
  exact transport_failure_notes_suppression 10 20 (fun _ => none) "x@y.zz"
    "554 Address is on the SES suppression list" (SesAnswer.failure "E")
    (Or.inr (Or.inl (by decide))) (by decide) (by decide)

theorem append_left_ne_empty (a b : String) (ha : a.data ≠ []) : a ++ b ≠ "" := by
  intro h
  have h2 := congrArg String.data h
  rw [String.data_append] at h2
  have h3 : a.data = [] := List.append_eq_nil.mp h2 |>.1
  exact ha h3

/-- C7: the HTML body lookup consults exactly the four paths, in order
locale template, english template, per-service locale template,
per-service english template, returning the first fetched text, and a
miss everywhere yields the non-empty built-in placeholder document
(the function is total, hence never throws). -/
theorem loadTemplate_fallback_order (store : String → Option String)
    (bucket brand kind : String) (sid : Option String) (loc : String) :
    loadTemplate store bucket brand kind sid loc =
      (match store (bucket ++ "/" ++ brand ++ "/" ++ kind ++ "/" ++ loc ++ ".html") with
       | some t => t
       | none =>
         match store (bucket ++ "/" ++ brand ++ "/" ++ kind ++ "/en.html") with
         | some t => t
         | none =>
           match store (bucket ++ "/" ++ brand ++ "/services/" ++ jsInterp sid ++ "/" ++
               loc ++ ".html") with
           | some t => t
           | none =>
             match store (bucket ++ "/" ++ brand ++ "/services/" ++ jsInterp sid ++
                 "/en.html") with
             | some t => t
             | none =>
               "<!doctype html><html><body><p>Fallback: " ++ kind ++ " (" ++ loc ++
                 ")</p></body></html>")
  ∧ ("<!doctype html><html><body><p>Fallback: " ++ kind ++ " (" ++ loc ++
      ")</p></body></html>" : String) ≠ "" := by
  constructor
  · unfold loadTemplate templateTryPaths
    simp only [List.findSome?_cons, List.findSome?_nil]
    cases store (bucket ++ "/" ++ brand ++ "/" ++ kind ++ "/" ++ loc ++ ".html") <;>
      cases store (bucket ++ "/" ++ brand ++ "/" ++ kind ++ "/en.html") <;>
      cases store (bucket ++ "/" ++ brand ++ "/services/" ++ jsInterp sid ++ "/" ++
        loc ++ ".html") <;>
      cases store (bucket ++ "/" ++ brand ++ "/services/" ++ jsInterp sid ++ "/en.html") <;>
      rfl
  · exact append_left_ne_empty "<!doctype html><html><body><p>Fallback: "
      (kind ++ " (" ++ loc ++ ")</p></body></html>") (by decide)

/-- C8: the legacy kind "invoice-paid" is normalized to "payment-paid"
before any template or subject path is constructed, and when the
subject lookup misses at both fallback paths the produced subject is
the built-in default for "payment-paid": brand display name, the text
": Payment received — order ", and the invoice number. -/
theorem invoicePaid_normalized_default_subject (store : String → Option String)
    (bucket brandKey locale : String) (serviceId : Option String)
    (brandCfg : JsVal) (systemData : List (String × JsVal)) (bn inv : String)
    (hmiss : ∀ p ∈ subjectTryPaths bucket brandKey "payment-paid" locale, store p = none)
    (hbn : jsGet brandCfg "brandName" = JsVal.str bn)
    (hinv : lookupFirst systemData "invoiceNo" = some (JsVal.str inv))
    (hinvne : inv ≠ "")
    (htrim : jsTrimStr (bn ++ ": Payment received — order " ++ inv)
        = bn ++ ": Payment received — order " ++ inv) :
    normalizeNotificationId "invoice-paid" = "payment-paid"
  ∧ renderEmailHtmlPaths bucket brandKey "invoice-paid" serviceId locale
      = templateTryPaths bucket brandKey "payment-paid" serviceId locale
  ∧ renderEmailSubjectPaths bucket brandKey "invoice-paid" locale
      = subjectTryPaths bucket brandKey "payment-paid" locale
  ∧ renderEmailSubject store bucket brandKey locale "invoice-paid" serviceId brandCfg systemData
      = bn ++ ": Payment received — order " ++ inv := by
  have hnorm : normalizeNotificationId "invoice-paid" = "payment-paid" := rfl
  refine ⟨hnorm, rfl, rfl, ?_⟩
  unfold renderEmailSubject
  rw [hnorm]
  have hsub : loadSubject store bucket brandKey "payment-paid" locale = none := by
    unfold loadSubject
    have p1 := hmiss (bucket ++ "/" ++ brandKey ++ "/" ++ "payment-paid" ++ "/" ++ locale ++
      ".subject.txt") (by unfold subjectTryPaths; simp)
    have p2 := hmiss (bucket ++ "/" ++ brandKey ++ "/" ++ "payment-paid" ++ "/en.subject.txt")
      (by unfold subjectTryPaths; simp)
    unfold subjectTryPaths
    simp only [List.findSome?_cons, List.findSome?_nil]
    rw [p1, p2]
  simp only [hsub]
  unfold defaultSubject
  have hbrand : jsGet (mergeData systemData brandCfg locale "payment-paid" serviceId) "brand"
      = brandCfg := by
    unfold mergeData jsGet getOwn lookupFirst
    simp
  have hInvNo : jsGet (mergeData systemData brandCfg locale "payment-paid" serviceId) "invoiceNo"
      = JsVal.str inv := by
    unfold mergeData jsGet getOwn
    simp only [List.cons_append, List.nil_append, lookupFirst]
    rw [if_neg (by decide), if_neg (by decide), if_neg (by decide), if_neg (by decide)]
    simp only [List.append_eq, List.nil_append]
    rw [hinv]
  rw [if_pos rfl, hbrand, hbn, hInvNo]
  have htr : jsTruthy (JsVal.str inv) = true := by
    simp [jsTruthy, hinvne]
  rw [if_pos htr]
  show jsTrimStr (bn ++ ": Payment received — order " ++ inv)
      = bn ++ ": Payment received — order " ++ inv
  exact htrim

theorem invoicePaid_normalized_default_subject_witness :
    renderEmailSubject (fun _ => none) "tpl" "yokweb" "en" "invoice-paid" none
        (JsVal.obj [("brandName", JsVal.str "Yokweb")]) [("invoiceNo", JsVal.str "INV-12345")]
      = "Yokweb" ++ ": Payment received — order " ++ "INV-12345" := by
  exact (invoicePaid_normalized_default_subject (fun _ => none) "tpl" "yokweb" "en" none
    (JsVal.obj [("brandName", JsVal.str "Yokweb")]) [("invoiceNo", JsVal.str "INV-12345")]
    "Yokweb" "INV-12345" (fun p _ => rfl) rfl rfl (by decide) (by decide)).2.2.2
